import Mathlib

/-!
Shallow embedding of the SSE streaming client `generateFrogPlaylistStreaming`
from `src/lib/api.ts` of the spotify-history dashboard, together with proofs
of the streaming-protocol properties claimed in the design spec.

Modelling conventions:
* transport bytes are `List Nat` (values 0..255);
* JavaScript strings are `List Nat` of UTF-16 code units, as produced by
  `TextDecoder` and consumed by `String.prototype.split`, `slice` and
  `JSON.parse`;
* handler invocations are recorded in an ordered trace `List Invocation`.
-/

namespace FrogStream

/-! ## WHATWG UTF-8 decoder (the semantics of `new TextDecoder()` with
`decode(chunk, { stream: true })`): a byte-at-a-time state machine that
carries incomplete multi-byte sequences across chunk boundaries, emits
U+FFFD on invalid bytes (with reconsumption), and strips one leading BOM. -/

structure DecState where
  codepoint : Nat
  needed : Nat
  seen : Nat
  lower : Nat
  upper : Nat
  /-- whether any code point has been produced yet (for BOM stripping) -/
  started : Bool
  deriving Repr, DecidableEq

def initDec : DecState :=
  { codepoint := 0, needed := 0, seen := 0, lower := 0x80, upper := 0xBF, started := false }

/-- Encode one Unicode code point as UTF-16 code units (JS string units). -/
def utf16Encode (cp : Nat) : List Nat :=
  if cp < 0x10000 then [cp]
  else [0xD800 + (cp - 0x10000) / 0x400, 0xDC00 + (cp - 0x10000) % 0x400]

/-- BOM handling of the default `TextDecoder`: the first code point of the
stream, if it is U+FEFF, is removed. -/
def emitUnits (st : DecState) (cps : List Nat) : DecState × List Nat :=
  match cps with
  | [] => (st, [])
  | cp :: rest =>
    if st.started then (st, (cp :: rest).flatMap utf16Encode)
    else if cp = 0xFEFF then ({ st with started := true }, rest.flatMap utf16Encode)
    else ({ st with started := true }, (cp :: rest).flatMap utf16Encode)

/-- Handle one byte in the ground state (`bytes needed = 0`) of the WHATWG
UTF-8 decoder; returns the machine state and the code points produced. -/
def decodeFresh (st : DecState) (b : Nat) : DecState × List Nat :=
  if b ≤ 0x7F then ({ st with needed := 0 }, [b])
  else if 0xC2 ≤ b ∧ b ≤ 0xDF then
    ({ st with needed := 1, seen := 0, codepoint := b % 32, lower := 0x80, upper := 0xBF }, [])
  else if 0xE0 ≤ b ∧ b ≤ 0xEF then
    let lo := if b = 0xE0 then 0xA0 else 0x80
    let hi := if b = 0xED then 0x9F else 0xBF
    ({ st with needed := 2, seen := 0, codepoint := b % 16, lower := lo, upper := hi }, [])
  else if 0xF0 ≤ b ∧ b ≤ 0xF4 then
    let lo := if b = 0xF0 then 0x90 else 0x80
    let hi := if b = 0xF4 then 0x8F else 0xBF
    ({ st with needed := 3, seen := 0, codepoint := b % 8, lower := lo, upper := hi }, [])
  else ({ st with needed := 0 }, [0xFFFD])

/-- One byte of the WHATWG UTF-8 decode algorithm (before BOM filtering). -/
def decByte (st : DecState) (b : Nat) : DecState × List Nat :=
  if st.needed = 0 then decodeFresh st b
  else if st.lower ≤ b ∧ b ≤ st.upper then
    let cp := st.codepoint * 64 + b % 64
    if st.seen + 1 = st.needed then
      ({ st with needed := 0, seen := 0, codepoint := 0, lower := 0x80, upper := 0xBF },
       [cp])
    else
      ({ st with seen := st.seen + 1, codepoint := cp, lower := 0x80, upper := 0xBF }, [])
  else
    -- invalid continuation: emit U+FFFD, reset, reconsume the byte
    let (st', out) := decodeFresh { st with needed := 0, seen := 0, codepoint := 0 } b
    (st', 0xFFFD :: out)

/-- One byte of `TextDecoder` including BOM stripping; output is UTF-16 units. -/
def decStep (st : DecState) (b : Nat) : DecState × List Nat :=
  let (st', cps) := decByte st b
  emitUnits st' cps

/-- `decoder.decode(bytes, { stream: true })`: run the state machine over a
chunk, threading the decoder state and concatenating the emitted units. -/
def decodeChunk (st : DecState) : List Nat → DecState × List Nat
  | [] => (st, [])
  | b :: bs =>
    let (st1, o) := decStep st b
    let (st2, os) := decodeChunk st1 bs
    (st2, o ++ os)

/-! ## JavaScript `string.split('\n')` on UTF-16 unit lists. -/

/-- `s.split('\n')` (the newline unit is 10): always returns a non-empty list
of newline-free segments. -/
def jsSplit : List Nat → List (List Nat)
  | [] => [[]]
  | u :: rest =>
    if u = 10 then [] :: jsSplit rest
    else
      match jsSplit rest with
      | [] => [[u]]
      | s :: ss => (u :: s) :: ss

/-! ## JSON values and `JSON.parse`.

`Json` is the result of `JSON.parse`: numbers keep their source lexeme (no
claim compares numeric values), strings are UTF-16 unit lists, objects keep
their members in source order (property lookup takes the last occurrence of
a duplicated key, as JavaScript does). -/

inductive Json where
  | null
  | bool (b : Bool)
  | num (lexeme : List Nat)
  | str (s : List Nat)
  | arr (items : List Json)
  | obj (fields : List (List Nat × Json))

/-- UTF-16 units of an ASCII/BMP Lean string literal. -/
def lit (s : String) : List Nat := s.data.map Char.toNat

def isWs (u : Nat) : Bool := u = 32 || u = 9 || u = 10 || u = 13

def skipWs : List Nat → List Nat
  | [] => []
  | u :: rest => if isWs u then skipWs rest else u :: rest

def hexVal (u : Nat) : Option Nat :=
  if 48 ≤ u ∧ u ≤ 57 then some (u - 48)
  else if 65 ≤ u ∧ u ≤ 70 then some (u - 55)
  else if 97 ≤ u ∧ u ≤ 102 then some (u - 87)
  else none

/-- Single-character JSON string escapes. -/
def escChar (u : Nat) : Option Nat :=
  if u = 34 then some 34
  else if u = 92 then some 92
  else if u = 47 then some 47
  else if u = 98 then some 8
  else if u = 102 then some 12
  else if u = 110 then some 10
  else if u = 114 then some 13
  else if u = 116 then some 9
  else none

/-- Body of a JSON string, after the opening quote: the decoded units and
the remainder after the closing quote. Control units below 0x20 are
rejected; `\uXXXX` contributes its unit verbatim (surrogates allowed). -/
def parseStringBody : List Nat → Option (List Nat × List Nat)
  | [] => none
  | 34 :: rest => some ([], rest)
  | 92 :: 117 :: h1 :: h2 :: h3 :: h4 :: rest =>
    (match hexVal h1, hexVal h2, hexVal h3, hexVal h4 with
     | some a, some b, some c, some d =>
       (parseStringBody rest).map fun p => ((((a * 16 + b) * 16 + c) * 16 + d) :: p.1, p.2)
     | _, _, _, _ => none)
  | 92 :: e :: rest =>
    (match escChar e with
     | some c => (parseStringBody rest).map fun p => (c :: p.1, p.2)
     | none => none)
  | [92] => none
  | u :: rest =>
    if 32 ≤ u then (parseStringBody rest).map fun p => (u :: p.1, p.2)
    else none

def takeDigits : List Nat → List Nat × List Nat
  | [] => ([], [])
  | u :: rest =>
    if 48 ≤ u ∧ u ≤ 57 then
      let p := takeDigits rest
      (u :: p.1, p.2)
    else ([], u :: rest)

/-- Integer part of a JSON number: `0` or a digit 1-9 followed by digits. -/
def parseIntPart : List Nat → Option (List Nat × List Nat)
  | [] => none
  | u :: rest =>
    if u = 48 then some ([48], rest)
    else if 49 ≤ u ∧ u ≤ 57 then
      let p := takeDigits rest
      some (u :: p.1, p.2)
    else none

/-- Optional fraction part `.digits`. -/
def parseFracPart : List Nat → Option (List Nat × List Nat)
  | 46 :: rest =>
    let p := takeDigits rest
    if p.1 = [] then none else some (46 :: p.1, p.2)
  | l => some ([], l)

/-- Optional exponent part `[eE][+-]?digits`. -/
def parseExpPart : List Nat → Option (List Nat × List Nat)
  | [] => some ([], [])
  | u :: rest =>
    if u = 101 ∨ u = 69 then
      match rest with
      | [] => none
      | s :: rest2 =>
        if s = 43 ∨ s = 45 then
          let p := takeDigits rest2
          if p.1 = [] then none else some (u :: s :: p.1, p.2)
        else
          let p := takeDigits rest
          if p.1 = [] then none else some (u :: p.1, p.2)
    else some ([], u :: rest)

/-- A JSON number lexeme `-? int frac? exp?`; kept as its unit list. -/
def parseNumberLex (l : List Nat) : Option (List Nat × List Nat) :=
  let mi := match l with
    | 45 :: rest => ([45], rest)
    | _ => (([] : List Nat), l)
  match parseIntPart mi.2 with
  | none => none
  | some (ip, l2) =>
    match parseFracPart l2 with
    | none => none
    | some (fp, l3) =>
      match parseExpPart l3 with
      | none => none
      | some (ep, l4) => some (mi.1 ++ ip ++ fp ++ ep, l4)

mutual

/-- One JSON value at the head of the input (leading whitespace already
skipped); fuel bounds the recursion and is chosen large enough at the
entry point `jsonParse`. -/
def parseValue : Nat → List Nat → Option (Json × List Nat)
  | 0, _ => none
  | Nat.succ fuel, l =>
    if l.take 4 = lit "null" then some (Json.null, l.drop 4)
    else if l.take 4 = lit "true" then some (Json.bool true, l.drop 4)
    else if l.take 5 = lit "false" then some (Json.bool false, l.drop 5)
    else
      match l with
      | [] => none
      | 34 :: rest => (parseStringBody rest).map fun p => (Json.str p.1, p.2)
      | 123 :: rest => parseObjBody fuel (skipWs rest)
      | 91 :: rest => parseArrBody fuel (skipWs rest)
      | _ => (parseNumberLex l).map fun p => (Json.num p.1, p.2)

/-- Object body after `\x7b` and whitespace. -/
def parseObjBody : Nat → List Nat → Option (Json × List Nat)
  | 0, _ => none
  | Nat.succ fuel, l =>
    match l with
    | 125 :: rest => some (Json.obj [], rest)
    | _ =>
      match parseMember fuel l with
      | none => none
      | some (k, v, r) => parseObjRest fuel [(k, v)] (skipWs r)

/-- One `"key" : value` member. -/
def parseMember : Nat → List Nat → Option (List Nat × Json × List Nat)
  | 0, _ => none
  | Nat.succ fuel, l =>
    match l with
    | 34 :: rest =>
      (match parseStringBody rest with
       | none => none
       | some (k, r) =>
         match skipWs r with
         | 58 :: r2 =>
           (match parseValue fuel (skipWs r2) with
            | none => none
            | some (v, r3) => some (k, v, r3))
         | _ => none)
    | _ => none

/-- Remaining members after the first, separated by commas. -/
def parseObjRest : Nat → List (List Nat × Json) → List Nat → Option (Json × List Nat)
  | 0, _, _ => none
  | Nat.succ fuel, acc, l =>
    match l with
    | 125 :: rest => some (Json.obj acc.reverse, rest)
    | 44 :: rest =>
      (match parseMember fuel (skipWs rest) with
       | none => none
       | some (k, v, r) => parseObjRest fuel ((k, v) :: acc) (skipWs r))
    | _ => none

/-- Array body after `[` and whitespace. -/
def parseArrBody : Nat → List Nat → Option (Json × List Nat)
  | 0, _ => none
  | Nat.succ fuel, l =>
    match l with
    | 93 :: rest => some (Json.arr [], rest)
    | _ =>
      match parseValue fuel l with
      | none => none
      | some (v, r) => parseArrRest fuel [v] (skipWs r)

/-- Remaining array elements after the first, separated by commas. -/
def parseArrRest : Nat → List Json → List Nat → Option (Json × List Nat)
  | 0, _, _ => none
  | Nat.succ fuel, acc, l =>
    match l with
    | 93 :: rest => some (Json.arr acc.reverse, rest)
    | 44 :: rest =>
      (match parseValue fuel (skipWs rest) with
       | none => none
       | some (v, r) => parseArrRest fuel (v :: acc) (skipWs r))
    | _ => none

end

/-- `JSON.parse`: parse one value, allow surrounding whitespace, require the
whole input to be consumed; `none` is a thrown `SyntaxError`. -/
def jsonParse (l : List Nat) : Option Json :=
  match parseValue (2 * l.length + 8) (skipWs l) with
  | some (v, r) => if skipWs r = [] then some v else none
  | none => none

/-! ## Event classification and dispatch (`for (const line of lines)` body). -/

/-- One recorded handler invocation: which of the three consumer callbacks
ran, and the event value it received. -/
inductive Invocation where
  | progress (payload : Json)
  | result (payload : Json)
  | error (payload : Json)

/-- The units of the literal `'data: '` checked by `line.startsWith`. -/
def dataMarker : List Nat := lit "data: "

/-- JavaScript property lookup on a parsed object: with duplicated keys the
last occurrence wins. -/
def getProp (fields : List (List Nat × Json)) (key : List Nat) : Option Json :=
  match fields with
  | [] => none
  | (k, v) :: rest =>
    match getProp rest key with
    | some w => some w
    | none => if k = key then some v else none

/-- `event.type` when it is a string: `none` models both a missing or
non-string `type` (so no `if` branch matches) and the `TypeError` thrown by
property access on `null` (swallowed by the surrounding `try`). -/
def typeField : Json → Option (List Nat)
  | Json.obj fs =>
    (match getProp fs (lit "type") with
     | some (Json.str s) => some s
     | _ => none)
  | _ => none

/-- The loop body for one decoded line: `startsWith('data: ')`, `slice(6)`,
`JSON.parse` inside `try`, then the `event.type` if/else chain. Returns the
handler invocation the line produces, if any. -/
def dispatchLine (line : List Nat) : Option Invocation :=
  if line.take 6 = dataMarker then
    match jsonParse (line.drop 6) with
    | none => none
    | some v =>
      match typeField v with
      | none => none
      | some t =>
        if t = lit "progress" then some (Invocation.progress v)
        else if t = lit "result" then some (Invocation.result v)
        else if t = lit "error" then some (Invocation.error v)
        else none
  else none

/-! ## The read loop of `generateFrogPlaylistStreaming`.

The `while (true)` loop state is the `TextDecoder`'s internal state plus the
residual line buffer `buffer`. Each successful `reader.read()` delivers a
byte chunk; a rejected read surfaces as an error with a `name` and a
`message` and is handled by the single `.catch` at the end of the promise
chain; `done` ends the loop (the end of the item list). -/

/-- ordered trace of the dispatch loop over decoded lines -/
def lineTrace (lines : List (List Nat)) : List Invocation :=
  lines.filterMap dispatchLine

structure LoopState where
  dec : DecState
  buf : List Nat

def initLoop : LoopState := { dec := initDec, buf := [] }

/-- `lines.pop() || ''`: the final, possibly incomplete, segment. -/
def lastSeg : List (List Nat) → List Nat
  | [] => []
  | [s] => s
  | _ :: rest => lastSeg rest

/-- One loop iteration on a delivered chunk:
`buffer += decoder.decode(value, { stream: true })`,
`const lines = buffer.split('\n')`, `buffer = lines.pop() || ''`,
then the dispatch loop over the completed lines. -/
def processChunk (st : LoopState) (bytes : List Nat) : LoopState × List Invocation :=
  let d := decodeChunk st.dec bytes
  let segs := jsSplit (st.buf ++ d.2)
  ({ dec := d.1, buf := lastSeg segs }, lineTrace segs.dropLast)

/-- What one `reader.read()` produced: a value chunk, or a rejection carrying
an error `name` and `message` (an aborted read rejects with name
`AbortError`). `done` is the end of the list. -/
inductive ReadItem where
  | chunk (bytes : List Nat)
  | err (name message : List Nat)

def abortName : List Nat := lit "AbortError"

/-- The event object built in the `.catch`:
`onError({ type: 'error', error: err.message || 'Stream error' })`. -/
def streamErrorEvent (msg : List Nat) : Json :=
  Json.obj [(lit "type", Json.str (lit "error")),
            (lit "error", Json.str (if msg = [] then lit "Stream error" else msg))]

/-- The `.catch` of the promise chain: an `AbortError` is swallowed, any
other rejection is reported once to `onError`. -/
def catchHandler (name msg : List Nat) : List Invocation :=
  if name = abortName then [] else [Invocation.error (streamErrorEvent msg)]

/-- The read loop: process chunks in arrival order; `done` breaks (the
residual buffer is dropped); a rejected read ends the loop through the
single `.catch`. -/
def runItems (st : LoopState) : List ReadItem → List Invocation
  | [] => []
  | ReadItem.chunk bs :: rest =>
    let p := processChunk st bs
    p.2 ++ runItems p.1 rest
  | ReadItem.err name msg :: _ => catchHandler name msg

/-- The `fetch` response as the code sees it: a status (never inspected by
the code) and `response.body` — `none` when there is no readable body. -/
structure JsResponse where
  status : Nat
  body : Option (List ReadItem)

/-- Outcome of the `fetch` call itself: resolved with a response, or
rejected (network failure, or abort before headers, with its error name). -/
inductive FetchOutcome where
  | resolved (resp : JsResponse)
  | rejected (name message : List Nat)

/-- End-to-end observable behavior of one `generateFrogPlaylistStreaming`
subscription: the ordered handler invocations for a given transport
outcome. A missing body raises `new Error('No response body')`, which the
`.catch` turns into an error invocation (its name `Error` is not
`AbortError`). -/
def generateFrogPlaylistStreamingRun : FetchOutcome → List Invocation
  | FetchOutcome.resolved resp =>
    (match resp.body with
     | none => catchHandler (lit "Error") (lit "No response body")
     | some items => runItems initLoop items)
  | FetchOutcome.rejected name msg => catchHandler name msg

/-- The `AbortController`: `cancel = () => controller.abort()` only sets the
aborted flag. -/
structure AbortCtrl where
  aborted : Bool

def abortCtrl (_ : AbortCtrl) : AbortCtrl := { aborted := true }

/-! ## Auxiliary forms of the loop used by the lemmas. -/

/-- trace of a run over plain chunks (no read failure) -/
def chunkTrace (st : LoopState) : List (List Nat) → List Invocation
  | [] => []
  | c :: cs => (processChunk st c).2 ++ chunkTrace (processChunk st c).1 cs

/-- loop state after a run over plain chunks -/
def stateAfter (st : LoopState) : List (List Nat) → LoopState
  | [] => st
  | c :: cs => stateAfter (processChunk st c).1 cs

/-! ## Concrete protocol payloads used by the examples below. -/

def progressPayload : Json := Json.obj [(lit "type", Json.str (lit "progress"))]

def resultPayload : Json :=
  Json.obj [(lit "type", Json.str (lit "result")), (lit "success", Json.bool true)]

/-! ## Structural lemmas about `jsSplit`, the decoder and the loop. -/

theorem jsSplit_ne_nil (l : List Nat) : jsSplit l ≠ [] := by
  induction l with
  | nil => simp [jsSplit]
  | cons u rest ih =>
    simp only [jsSplit]
    split
    · simp
    · cases h : jsSplit rest with
      | nil => simp
      | cons s ss => simp

theorem jsSplit_no_newline (l : List Nat) (h : (10 : Nat) ∉ l) : jsSplit l = [l] := by
  induction l with
  | nil => rfl
  | cons u rest ih =>
    have hu : u ≠ 10 := fun e => h (e ▸ List.mem_cons_self u rest)
    have hr : (10 : Nat) ∉ rest := fun m => h (List.mem_cons_of_mem _ m)
    simp [jsSplit, hu, ih hr]

theorem jsSplit_break (buf z : List Nat) (h : (10 : Nat) ∉ buf) :
    jsSplit (buf ++ 10 :: z) = buf :: jsSplit z := by
  induction buf with
  | nil => simp [jsSplit]
  | cons c cs ih =>
    have hc : c ≠ 10 := fun e => h (e ▸ List.mem_cons_self c cs)
    have hcs : (10 : Nat) ∉ cs := fun m => h (List.mem_cons_of_mem _ m)
    simp [jsSplit, hc, ih hcs]

theorem jsSplit_mem_no_newline (l : List Nat) : ∀ s ∈ jsSplit l, (10 : Nat) ∉ s := by
  induction l with
  | nil =>
    intro s hs
    simp [jsSplit] at hs
    simp [hs]
  | cons u rest ih =>
    intro s hs
    by_cases hu : u = 10
    · subst hu
      simp [jsSplit] at hs
      rcases hs with h | h
      · simp [h]
      · exact ih s h
    · simp only [jsSplit, if_neg hu] at hs
      cases hsp : jsSplit rest with
      | nil => exact absurd hsp (jsSplit_ne_nil rest)
      | cons t ts =>
        rw [hsp] at hs
        rcases List.mem_cons.mp hs with h | h
        · subst h
          intro hm
          rcases List.mem_cons.mp hm with e | e
          · exact hu e.symm
          · exact ih t (by rw [hsp]; exact List.mem_cons_self t ts) e
        · exact ih s (by rw [hsp]; exact List.mem_cons_of_mem t h)

theorem lastSeg_cons (s : List Nat) (ls : List (List Nat)) (h : ls ≠ []) :
    lastSeg (s :: ls) = lastSeg ls := by
  cases ls with
  | nil => exact absurd rfl h
  | cons x xs => rfl

theorem lastSeg_mem (ls : List (List Nat)) (h : ls ≠ []) : lastSeg ls ∈ ls := by
  induction ls with
  | nil => exact absurd rfl h
  | cons s rest ih =>
    cases rest with
    | nil => exact List.mem_cons_self _ _
    | cons x xs =>
      rw [lastSeg_cons s (x :: xs) (by simp)]
      exact List.mem_cons_of_mem _ (ih (by simp))

theorem dropLast_cons_of_ne (s : List Nat) (ls : List (List Nat)) (h : ls ≠ []) :
    (s :: ls).dropLast = s :: ls.dropLast := by
  cases ls with
  | nil => exact absurd rfl h
  | cons x xs => rfl

/-- The residual after feeding `t1 ++ t2` into a newline-free buffer equals
feeding `t2` into the residual left by `t1`. -/
theorem resid_append (t1 t2 : List Nat) :
    ∀ buf : List Nat, (10 : Nat) ∉ buf →
      lastSeg (jsSplit (buf ++ (t1 ++ t2))) =
        lastSeg (jsSplit (lastSeg (jsSplit (buf ++ t1)) ++ t2)) := by
  induction t1 with
  | nil =>
    intro buf h
    rw [List.nil_append, List.append_nil, jsSplit_no_newline buf h]
    rfl
  | cons u t1' ih =>
    intro buf h
    by_cases hu : u = 10
    · subst hu
      have e1 : buf ++ (10 :: t1' ++ t2) = buf ++ 10 :: (t1' ++ t2) := rfl
      rw [e1, jsSplit_break _ _ h,
        lastSeg_cons _ _ (jsSplit_ne_nil _),
        jsSplit_break _ _ h, lastSeg_cons _ _ (jsSplit_ne_nil _)]
      have := ih [] (by simp)
      simpa using this
    · have h' : (10 : Nat) ∉ buf ++ [u] := by
        intro m
        rcases List.mem_append.mp m with m | m
        · exact h m
        · exact hu (List.eq_of_mem_singleton m).symm
      have e1 : buf ++ (u :: t1' ++ t2) = (buf ++ [u]) ++ (t1' ++ t2) := by
        simp
      have e2 : buf ++ u :: t1' = (buf ++ [u]) ++ t1' := by
        simp
      rw [show buf ++ ((u :: t1') ++ t2) = (buf ++ [u]) ++ (t1' ++ t2) by simp,
        show buf ++ u :: t1' = (buf ++ [u]) ++ t1' by simp]
      exact ih (buf ++ [u]) h'

/-- The completed lines from feeding `t1 ++ t2` into a newline-free buffer
are the completed lines of `t1` followed by those of `t2` fed into the
residual left by `t1`. -/
theorem completed_append (t1 t2 : List Nat) :
    ∀ buf : List Nat, (10 : Nat) ∉ buf →
      (jsSplit (buf ++ (t1 ++ t2))).dropLast =
        (jsSplit (buf ++ t1)).dropLast ++
          (jsSplit (lastSeg (jsSplit (buf ++ t1)) ++ t2)).dropLast := by
  induction t1 with
  | nil =>
    intro buf h
    rw [List.nil_append, List.append_nil, jsSplit_no_newline buf h]
    rfl
  | cons u t1' ih =>
    intro buf h
    by_cases hu : u = 10
    · subst hu
      have e1 : buf ++ (10 :: t1' ++ t2) = buf ++ 10 :: (t1' ++ t2) := rfl
      rw [e1, jsSplit_break _ _ h,
        dropLast_cons_of_ne _ _ (jsSplit_ne_nil _),
        jsSplit_break _ _ h,
        dropLast_cons_of_ne _ _ (jsSplit_ne_nil _),
        lastSeg_cons _ _ (jsSplit_ne_nil _)]
      have := ih [] (by simp)
      simp only [List.nil_append] at this
      rw [this, List.cons_append]
    · have h' : (10 : Nat) ∉ buf ++ [u] := by
        intro m
        rcases List.mem_append.mp m with m | m
        · exact h m
        · exact hu (List.eq_of_mem_singleton m).symm
      rw [show buf ++ ((u :: t1') ++ t2) = (buf ++ [u]) ++ (t1' ++ t2) by simp,
        show buf ++ u :: t1' = (buf ++ [u]) ++ t1' by simp]
      exact ih (buf ++ [u]) h'

theorem decodeChunk_append (st : DecState) (a b : List Nat) :
    decodeChunk st (a ++ b) =
      ((decodeChunk (decodeChunk st a).1 b).1,
        (decodeChunk st a).2 ++ (decodeChunk (decodeChunk st a).1 b).2) := by
  induction a generalizing st with
  | nil => simp [decodeChunk]
  | cons x xs ih =>
    simp [decodeChunk, ih, List.append_assoc]

theorem processChunk_buf_no_newline (st : LoopState) (c : List Nat) :
    (10 : Nat) ∉ (processChunk st c).1.buf := by
  unfold processChunk
  exact jsSplit_mem_no_newline _ _ (lastSeg_mem _ (jsSplit_ne_nil _))

/-- Delivering one chunk `a ++ b` behaves exactly like delivering `a` then
`b`: same final state, concatenated invocation traces. -/
theorem processChunk_merge (st : LoopState) (a b : List Nat) (h : (10 : Nat) ∉ st.buf) :
    processChunk st (a ++ b) =
      ((processChunk (processChunk st a).1 b).1,
        (processChunk st a).2 ++ (processChunk (processChunk st a).1 b).2) := by
  unfold processChunk
  rw [decodeChunk_append]
  simp only []
  rw [completed_append _ _ _ h, resid_append _ _ _ h]
  unfold lineTrace
  rw [List.filterMap_append]

theorem runItems_chunks (cs : List (List Nat)) :
    ∀ (st : LoopState) (rest : List ReadItem),
      runItems st (cs.map ReadItem.chunk ++ rest) =
        chunkTrace st cs ++ runItems (stateAfter st cs) rest := by
  induction cs with
  | nil =>
    intro st rest
    simp [chunkTrace, stateAfter]
  | cons c cs ih =>
    intro st rest
    simp only [List.map_cons, List.cons_append, runItems, chunkTrace, stateAfter,
      List.append_eq, ih, List.append_assoc]

/-- Processing the concatenation of a chunk list in one delivery gives the
same final state and the same trace as processing the chunks one by one. -/
theorem processChunk_join (cs : List (List Nat)) :
    ∀ st : LoopState, (10 : Nat) ∉ st.buf →
      processChunk st cs.flatten = (stateAfter st cs, chunkTrace st cs) := by
  induction cs with
  | nil =>
    intro st h
    unfold processChunk
    simp [decodeChunk, jsSplit_no_newline st.buf h, lastSeg, lineTrace, chunkTrace, stateAfter]
  | cons c cs ih =>
    intro st h
    rw [List.flatten_cons, processChunk_merge st c cs.flatten h,
      ih _ (processChunk_buf_no_newline st c)]
    simp [chunkTrace, stateAfter]

/-! ## The claimed properties. -/

/-- C1 counterexample: a single chunk carrying a well-formed result frame
followed by a well-formed progress frame invokes `onResult` and then
`onProgress`: the handler invocation after the terminal event is *not*
dropped, refuting the claim as stated. -/
theorem postTerminalDispatch_cex :
    runItems initLoop
      [ReadItem.chunk
        (lit "data: \x7b\"type\":\"result\",\"success\":true\x7d\ndata: \x7b\"type\":\"progress\"\x7d\n")] =
      [Invocation.result resultPayload, Invocation.progress progressPayload] := rfl

/-- C1 (amended): the loop state threaded between reads holds only the
decoder state and the line buffer — no terminal flag — so the invocations
produced by later chunks are independent of any terminal event dispatched
by earlier chunks: every well-formed `data: ` frame after a result or error
event still invokes its handler. -/
theorem postTerminalDispatch (st : LoopState) (xs ys : List (List Nat)) :
    runItems st ((xs ++ ys).map ReadItem.chunk) =
      runItems st (xs.map ReadItem.chunk) ++
        runItems (stateAfter st xs) (ys.map ReadItem.chunk) := by
  have h1 := runItems_chunks xs st (ys.map ReadItem.chunk)
  have h2 := runItems_chunks xs st []
  simp only [List.append_nil, runItems] at h2
  rw [List.map_append, h1, h2]

/-- C2: delivering a byte stream in arbitrarily chosen chunks produces
exactly the same ordered trace of handler invocations as delivering the
whole byte stream as one chunk. -/
theorem chunkBoundaryInvariance (cs : List (List Nat)) :
    runItems initLoop (cs.map ReadItem.chunk) =
      runItems initLoop [ReadItem.chunk cs.flatten] := by
  have h : (10 : Nat) ∉ initLoop.buf := by simp [initLoop]
  have h1 := runItems_chunks cs initLoop []
  simp only [List.append_nil, runItems] at h1
  simp only [runItems, processChunk_join cs initLoop h, h1, List.append_nil]

/-- C3: after cancellation — modelled by the aborted transport rejecting
the pending read with an `AbortError` — no handler is invoked: neither by
items the transport would have delivered later (including a well-formed
terminal event) nor by the abort-induced failure itself, which the
`.catch` recognizes by name and swallows; an abort before the response
headers likewise invokes nothing. -/
theorem cancellationSuppression (st : LoopState) (pre post : List ReadItem) (m : List Nat) :
    runItems st (pre ++ ReadItem.err abortName m :: post) = runItems st pre ∧
      generateFrogPlaylistStreamingRun (FetchOutcome.rejected abortName m) = [] := by
  constructor
  · induction pre generalizing st with
    | nil => simp [runItems, catchHandler]
    | cons i pre ih =>
      cases i with
      | chunk bs => simp [runItems, ih]
      | err n msg => simp [runItems]
  · rfl

/-- C4 counterexample: a resolved response with HTTP status 500 whose body
is not an event stream (here: one JSON error chunk with no line break)
invokes no handler at all — in particular no `onError` — because the code
never inspects the response status, refuting the claim as stated. -/
theorem nonOkStatusSilent_cex :
    generateFrogPlaylistStreamingRun
      (FetchOutcome.resolved
        ⟨500, some [ReadItem.chunk (lit "\x7b\"detail\":\"Internal Server Error\"\x7d")]⟩) =
      [] := rfl

/-- C4 (amended): transport failures that surface as a rejected `fetch`
promise or as a failed stream read, while not cancelled, are reported
exactly once to the error handler with a human-readable message and end
the subscription; the HTTP response status is never inspected, so a
non-2xx status on its own produces no `onError` invocation. -/
theorem transportFailureReporting :
    (∀ name msg : List Nat, name ≠ abortName →
      generateFrogPlaylistStreamingRun (FetchOutcome.rejected name msg) =
        [Invocation.error (streamErrorEvent msg)]) ∧
    (∀ (st : LoopState) (pre : List (List Nat)) (name msg : List Nat) (post : List ReadItem),
      name ≠ abortName →
      runItems st (pre.map ReadItem.chunk ++ ReadItem.err name msg :: post) =
        chunkTrace st pre ++ [Invocation.error (streamErrorEvent msg)]) ∧
    (∀ (s₁ s₂ : Nat) (body : Option (List ReadItem)),
      generateFrogPlaylistStreamingRun (FetchOutcome.resolved ⟨s₁, body⟩) =
        generateFrogPlaylistStreamingRun (FetchOutcome.resolved ⟨s₂, body⟩)) := by
  refine ⟨fun name msg h => ?_, fun st pre name msg post h => ?_, fun s₁ s₂ body => ?_⟩
  · simp [generateFrogPlaylistStreamingRun, catchHandler, h]
  · rw [runItems_chunks pre st (ReadItem.err name msg :: post)]
    simp [runItems, catchHandler, h]
  · cases body <;> rfl

/-- C4 witness: the amended theorem applied at a rejected fetch with name
`TypeError` and at a failed read with name `Error`. -/
theorem transportFailureReporting_w :
    (lit "TypeError" ≠ abortName) ∧
      generateFrogPlaylistStreamingRun
        (FetchOutcome.rejected (lit "TypeError") (lit "Failed to fetch")) =
        [Invocation.error (streamErrorEvent (lit "Failed to fetch"))] ∧
      runItems initLoop [ReadItem.err (lit "Error") (lit "stream broke")] =
        chunkTrace initLoop [] ++ [Invocation.error (streamErrorEvent (lit "stream broke"))] :=
  ⟨by decide,
    transportFailureReporting.1 (lit "TypeError") (lit "Failed to fetch") (by decide),
    by
      have h := transportFailureReporting.2.1 initLoop []
        (lit "Error") (lit "stream broke") [] (by decide)
      simpa using h⟩

/-- C5: a line that does not start with `data: `, or whose remainder after
the marker is not valid JSON, or parses to a value whose `type` is missing,
not a string, or outside progress/result/error, can be inserted anywhere
without changing the dispatched trace: no handler runs for it, no error is
reported, and the surrounding events are dispatched unchanged. -/
theorem malformedLineTolerance (L₁ L₂ : List (List Nat)) (m : List Nat)
    (h : m.take 6 ≠ dataMarker ∨ jsonParse (m.drop 6) = none ∨
      (∀ v, jsonParse (m.drop 6) = some v →
        typeField v = none ∨
          ∃ t, typeField v = some t ∧
            t ≠ lit "progress" ∧ t ≠ lit "result" ∧ t ≠ lit "error")) :
    lineTrace (L₁ ++ m :: L₂) = lineTrace (L₁ ++ L₂) := by
  have hm : dispatchLine m = none := by
    unfold dispatchLine
    rcases h with h | h | h
    · simp [h]
    · simp [h]
    · cases hp : jsonParse (m.drop 6) with
      | none => simp [hp]
      | some v =>
        rcases h v hp with ht | ⟨t, ht, h1, h2, h3⟩
        · simp [hp, ht]
        · simp [hp, ht, h1, h2, h3]
  unfold lineTrace
  rw [List.filterMap_append, List.filterMap_append, List.filterMap_cons_none hm]

/-- C5 witness: inserting the unparsable frame `data: \x7bbroken` between a
progress frame and a result frame leaves the trace unchanged. -/
theorem malformedLineTolerance_w :
    jsonParse ((lit "data: \x7bbroken").drop 6) = none ∧
      lineTrace
        ([lit "data: \x7b\"type\":\"progress\"\x7d"] ++
          (lit "data: \x7bbroken") :: [lit "data: \x7b\"type\":\"result\",\"success\":true\x7d"]) =
      lineTrace
        ([lit "data: \x7b\"type\":\"progress\"\x7d"] ++
          [lit "data: \x7b\"type\":\"result\",\"success\":true\x7d"]) :=
  ⟨rfl,
    malformedLineTolerance _ _ _ (Or.inr (Or.inl rfl))⟩

/-- C6: the trace of any delivered stream comes exclusively from the fully
line-break-terminated lines of the decoded text: the final segment after
the last line break — the residual buffer at stream end — never surfaces
as a frame, produces no handler invocation and no error. -/
theorem residualSegmentDiscarded (cs : List (List Nat)) :
    runItems initLoop (cs.map ReadItem.chunk) =
      lineTrace ((jsSplit (decodeChunk initDec cs.flatten).2).dropLast) := by
  have h : (10 : Nat) ∉ initLoop.buf := by simp [initLoop]
  have h1 := runItems_chunks cs initLoop []
  simp only [List.append_nil, runItems] at h1
  rw [h1]
  have h2 := processChunk_join cs initLoop h
  have := congrArg Prod.snd h2
  simp only [] at this
  rw [← this]
  unfold processChunk
  simp [initLoop]

/-- C7 counterexample: the error event synthesized from a transport failure
with message `boom` carries its text in the field named `error`; it has no
`message` field at all, refuting the claimed payload shape. -/
theorem errorFieldName_cex :
    generateFrogPlaylistStreamingRun (FetchOutcome.rejected (lit "TypeError") (lit "boom")) =
      [Invocation.error
        (Json.obj [(lit "type", Json.str (lit "error")), (lit "error", Json.str (lit "boom"))])] ∧
    getProp [(lit "type", Json.str (lit "error")), (lit "error", Json.str (lit "boom"))]
        (lit "message") = none :=
  ⟨rfl, rfl⟩

/-- C7 (amended): every error event synthesized from a non-abort transport
failure with a non-empty message carries its human-readable text in a
string field named `error` — the payload shape is
`\x7b "type": "error", "error": string \x7d` — and has no `message` field;
parsed `"error"`-typed protocol events are passed to `onError` verbatim. -/
theorem errorEventErrorField (name msg : List Nat) (h : name ≠ abortName) (hm : msg ≠ []) :
    generateFrogPlaylistStreamingRun (FetchOutcome.rejected name msg) =
      [Invocation.error
        (Json.obj [(lit "type", Json.str (lit "error")), (lit "error", Json.str msg)])] ∧
    getProp [(lit "type", Json.str (lit "error")), (lit "error", Json.str msg)]
        (lit "message") = none := by
  constructor
  · simp [generateFrogPlaylistStreamingRun, catchHandler, streamErrorEvent, h, hm]
  · rfl

/-- C7 witness: the amended theorem at name `Error`, message `network down`. -/
theorem errorEventErrorField_w :
    (lit "Error" ≠ abortName) ∧ (lit "network down" ≠ ([] : List Nat)) ∧
      generateFrogPlaylistStreamingRun
        (FetchOutcome.rejected (lit "Error") (lit "network down")) =
        [Invocation.error
          (Json.obj [(lit "type", Json.str (lit "error")),
            (lit "error", Json.str (lit "network down"))])] :=
  ⟨by decide, by decide,
    (errorEventErrorField (lit "Error") (lit "network down") (by decide) (by decide)).1⟩

/-- C8: the returned cancel function is idempotent and safe after natural
termination: `controller.abort()` twice equals once, and an abort signal
arriving at the end of any item sequence — a second cancellation, or one
issued after the stream finished — adds no handler invocation. -/
theorem cancelIdempotent :
    (∀ c : AbortCtrl, abortCtrl (abortCtrl c) = abortCtrl c) ∧
    (∀ (st : LoopState) (items : List ReadItem) (m : List Nat),
      runItems st (items ++ [ReadItem.err abortName m]) = runItems st items) := by
  refine ⟨fun c => rfl, fun st items m => ?_⟩
  induction items generalizing st with
  | nil => simp [runItems, catchHandler]
  | cons i items ih =>
    cases i with
    | chunk bs => simp [runItems, ih]
    | err n msg => simp [runItems]

/-- C9: dispatch validates only the `type` field: whenever the payload of a
`data: ` frame parses to a JSON value whose `type` is one of the three
recognized strings, the matching handler receives the parsed value
verbatim — no other field is consulted, so incomplete payloads (for
example a progress event with no `phase`) are still delivered. -/
theorem typeOnlyValidation (j : List Nat) (v : Json) (t : List Nat)
    (hp : jsonParse j = some v) (ht : typeField v = some t) :
    dispatchLine (dataMarker ++ j) =
      (if t = lit "progress" then some (Invocation.progress v)
       else if t = lit "result" then some (Invocation.result v)
       else if t = lit "error" then some (Invocation.error v)
       else none) := by
  unfold dispatchLine
  rw [show (6 : Nat) = dataMarker.length from rfl, List.take_left, List.drop_left, hp]
  simp [ht]

/-- C9 witness: a progress frame whose payload has only a `type` field (no
`phase`, no other fields) still invokes the progress handler with that
incomplete payload. -/
theorem typeOnlyValidation_w :
    jsonParse (lit "\x7b\"type\":\"progress\"\x7d") = some progressPayload ∧
      dispatchLine (dataMarker ++ lit "\x7b\"type\":\"progress\"\x7d") =
        some (Invocation.progress progressPayload) :=
  ⟨rfl,
    (typeOnlyValidation (lit "\x7b\"type\":\"progress\"\x7d") progressPayload
      (lit "progress") rfl rfl).trans (by rfl)⟩

/-- C10: a response without a readable body terminates the subscription
with exactly one `onError` invocation whose error text is
`No response body`, and no progress or result invocation, whatever the
response status. -/
theorem noResponseBody (status : Nat) :
    generateFrogPlaylistStreamingRun (FetchOutcome.resolved ⟨status, none⟩) =
      [Invocation.error
        (Json.obj [(lit "type", Json.str (lit "error")),
          (lit "error", Json.str (lit "No response body"))])] := rfl

end FrogStream
